import Mathlib

/-!
Verification development for the CHIANTI ingestion pipeline of `fiasco`
(`fiasco/io/generic.py` and `fiasco/io/sources/non_ion_sources.py`).

The Python pipeline is shallowly embedded: pure line/record decoding becomes
Lean functions over `List String` / `List Char`; the fallible steps of
`GenericParser.parse` become `Except ParseError`; the mutable HDF5 store
becomes an association list from group paths to group records, threaded
explicitly through the writer functions.  Machine floats are modelled by `ℚ`
for values produced by decoding, with the (irrational) base-10 exponentials
of the source represented symbolically and interpreted into `ℝ` by dedicated
interpretation functions.
-/

namespace Fiasco

/- Rational arithmetic must evaluate on the concrete scenario inputs, so the
irreducibility of the `Rat` operations is lowered for this file. -/
attribute [local semireducible] Rat.add Rat.sub Rat.mul Rat.inv Rat.ofScientific

/-! ## Python string primitives -/

/-- Python `str.strip()` on the characters of a line: drop leading and
trailing whitespace. -/
def pyStripChars (cs : List Char) : List Char :=
  ((cs.dropWhile Char.isWhitespace).reverse.dropWhile Char.isWhitespace).reverse

/-- Python `str.strip()`. -/
def pyStrip (s : String) : String :=
  String.mk (pyStripChars s.toList)

/-- Helper for `wsSplit`: one pass over the characters, accumulating the
current (reversed) token. -/
def wsSplitAux : List Char → List Char → List String
  | [], acc => if acc.isEmpty then [] else [String.mk acc.reverse]
  | c :: cs, acc =>
    if c.isWhitespace then
      if acc.isEmpty then wsSplitAux cs []
      else String.mk acc.reverse :: wsSplitAux cs []
    else wsSplitAux cs (c :: acc)

/-- Python `str.split()` with no argument: split on runs of whitespace,
discarding empty tokens. -/
def wsSplit (s : String) : List String :=
  wsSplitAux s.toList []

/-- `''.join(lines[i+1:])` for lines obtained from `readlines()`: each stored
line is modelled without its trailing newline, which this join restores
(the source files are newline-terminated). -/
def joinLines (ls : List String) : String :=
  String.join (ls.map (fun l => l ++ "\n"))

/-- Python `str.lower()` (ASCII identifiers only in the pipeline). -/
def pyLower (s : String) : String :=
  String.mk (s.toList.map Char.toLower)

/-- `os.path.basename`: the part of the path after the last slash. -/
def pathBasename (p : String) : String :=
  String.mk ((p.toList.reverse.takeWhile (fun c => c ≠ '/')).reverse)

/-- `os.path.splitext(...)[0]` composed with `os.path.basename`: the filename
stem used as the derived dataset name.  (The leading-dot special case of
`splitext` is not exercised by any CHIANTI filename.) -/
def pathStem (p : String) : String :=
  let base := (pathBasename p).toList
  if base.contains '.' then
    String.mk (((base.reverse.dropWhile (fun c => c ≠ '.')).drop 1).reverse)
  else String.mk base

/-- Is `pat` a prefix of `cs` (character-wise)? -/
def charsPrefixEq : List Char → List Char → Bool
  | [], _ => true
  | _ :: _, [] => false
  | a :: as, b :: bs => a = b && charsPrefixEq as bs

/-- Number of positions of `cs` at which `pat` occurs as a (contiguous)
substring; used to state "the footer contains the block exactly once". -/
def countOccs (pat : List Char) : List Char → Nat
  | [] => if pat.isEmpty then 1 else 0
  | c :: cs => (if charsPrefixEq pat (c :: cs) then 1 else 0) + countOccs pat cs

/-- Substring-occurrence count on strings. -/
def countOccsStr (pat s : String) : Nat :=
  countOccs pat.toList s.toList

/-! ## Numeric token parsing

`int(...)` / `float(...)` as invoked by the pipeline on decoded text tokens,
and the Fortran-style field parsing of the `fortranformat` record readers.
Values are represented by `ℤ` / `ℚ`. -/

/-- Digits of a base-10 numeral, most significant first, as a natural. -/
def digitsToNat (ds : List Char) : Nat :=
  ds.foldl (fun a c => 10 * a + (c.toNat - 48)) 0

/-- Take the maximal leading run of decimal digits. -/
def spanDigits (cs : List Char) : List Char × List Char :=
  (cs.takeWhile Char.isDigit, cs.dropWhile Char.isDigit)

/-- Optional leading sign; returns the sign as `1` or `-1` and the rest. -/
def readSign : List Char → Int × List Char
  | '+' :: cs => (1, cs)
  | '-' :: cs => (-1, cs)
  | cs => (1, cs)

/-- Python `int(s)`: strip whitespace, optional sign, one or more digits.
(Underscore digit separators are not exercised by any source file and are
not modelled.) -/
def pyParseInt (s : String) : Option Int :=
  let cs := pyStripChars s.toList
  let (sg, cs) := readSign cs
  let (ds, rest) := spanDigits cs
  if ds.isEmpty ∨ ¬ rest.isEmpty then none
  else some (sg * (digitsToNat ds : Int))

/-- Python `float(s)` restricted to finite decimal/exponent literals:
strip whitespace, optional sign, digits with optional fraction, optional
`e`/`E` exponent.  (`inf`/`nan` literals are not exercised by the pipeline
and are not modelled.) -/
def pyParseFloat (s : String) : Option ℚ :=
  let cs := pyStripChars s.toList
  let (sg, cs) := readSign cs
  let (ip, cs) := spanDigits cs
  let (fp, cs) :=
    match cs with
    | '.' :: cs => let (fp, cs) := spanDigits cs; (fp, cs)
    | _ => ([], cs)
  if ip.isEmpty ∧ fp.isEmpty then none
  else
    let mant : ℚ := (sg : ℚ) * ((digitsToNat ip : ℚ) + (digitsToNat fp : ℚ) / (10 : ℚ) ^ fp.length)
    match cs with
    | [] => some mant
    | 'e' :: cs => pyFloatExp mant cs
    | 'E' :: cs => pyFloatExp mant cs
    | _ => none
where
  /-- Exponent part `[+-]digits` applied to the mantissa. -/
  pyFloatExp (mant : ℚ) (cs : List Char) : Option ℚ :=
    let (esg, cs) := readSign cs
    let (eds, rest) := spanDigits cs
    if eds.isEmpty ∨ ¬ rest.isEmpty then none
    else some (mant * (10 : ℚ) ^ (esg * (digitsToNat eds : Int)))

/-! ## Decoded tokens -/

/-- A decoded token of a data row.  `pow10arr ls` symbolically represents the
numeric array `[10 ^ l | l ∈ ls]` produced by `10.**np.array(...)` in
`IoneqParser.preprocessor`; its real value is recovered by `tokRealArr`. -/
inductive Token where
  | int (i : ℤ)
  | real (q : ℚ)
  | str (s : String)
  | arr (xs : List ℚ)
  | pow10arr (logs : List ℚ)
  deriving DecidableEq, Repr

/-- Real value of an array-valued token (`arr` entries are exact rationals;
`pow10arr` entries are base-10 exponentials). -/
noncomputable def tokRealArr : Token → List ℝ
  | .arr xs => xs.map (fun q => (q : ℝ))
  | .pow10arr ls => ls.map (fun l => (10 : ℝ) ^ ((l : ℚ) : ℝ))
  | _ => []

/-- Declared column type of a schema (`dtypes` in the parsers). -/
inductive DType where
  | int
  | float
  | str
  deriving DecidableEq

/-! ## Fortran fixed-width record reading

Modelled from the spec: the repository delegates fixed-width decoding to the
external `fortranformat` package ("Fixed-width strategy: a column-width
specification (column count and width per column, optionally
repeated/dynamic) decodes each line into the declared number of tokens
regardless of embedded whitespace").  Each field is cut out of the record at
its declared width (records shorter than the format are blank-padded, per
Fortran list input); numeric fields follow Fortran blank-null editing:
blanks are ignored, an all-blank field reads as zero, and a field lacking a
decimal point is scaled by the declared implied-decimal count. -/

/-- One edit descriptor of a Fortran format: `I w`, `F w d`, `E w d`, `A w`. -/
inductive FSpec where
  | I (w : Nat)
  | F (w d : Nat)
  | E (w d : Nat)
  | A (w : Nat)
  deriving DecidableEq

/-- Width of a field. -/
def FSpec.width : FSpec → Nat
  | .I w => w
  | .F w _ => w
  | .E w _ => w
  | .A w => w

/-- Fortran integer field under blank-null editing: drop blanks, then an
optional sign and digits; an all-blank field is zero. -/
def readIntField (f : List Char) : Option Int :=
  let g := f.filter (fun c => c ≠ ' ')
  if g.isEmpty then some 0
  else
    let (sg, cs) := readSign g
    let (ds, rest) := spanDigits cs
    if ds.isEmpty ∨ ¬ rest.isEmpty then none
    else some (sg * (digitsToNat ds : Int))

/-- Fortran real field under blank-null editing: drop blanks, then
`[s]digits[.digits]` with an optional exponent written `e`/`E`/`d`/`D` or as
a bare signed integer; without a decimal point the value is scaled by
`10 ^ -d` (implied decimal).  An all-blank field is zero. -/
def readRealField (f : List Char) (d : Nat) : Option ℚ :=
  let g := f.filter (fun c => c ≠ ' ')
  if g.isEmpty then some 0
  else
    let (sg, cs) := readSign g
    let (ip, cs) := spanDigits cs
    let (hasDot, fp, cs) :=
      match cs with
      | '.' :: cs => let (fp, cs) := spanDigits cs; (true, fp, cs)
      | _ => (false, [], cs)
    if ip.isEmpty ∧ fp.isEmpty then none
    else
      let mant : ℚ :=
        if hasDot then
          (sg : ℚ) * ((digitsToNat ip : ℚ) + (digitsToNat fp : ℚ) / (10 : ℚ) ^ fp.length)
        else
          (sg : ℚ) * (digitsToNat ip : ℚ) / (10 : ℚ) ^ d
      let expPart : List Char → Option ℚ := fun cs =>
        let (esg, cs) := readSign cs
        let (eds, rest) := spanDigits cs
        if eds.isEmpty ∨ ¬ rest.isEmpty then none
        else some (mant * (10 : ℚ) ^ (esg * (digitsToNat eds : Int)))
      match cs with
      | [] => some mant
      | 'e' :: cs => expPart cs
      | 'E' :: cs => expPart cs
      | 'd' :: cs => expPart cs
      | 'D' :: cs => expPart cs
      | '+' :: cs => expPart ('+' :: cs)
      | '-' :: cs => expPart ('-' :: cs)
      | _ => none

/-- Read one field at position `pos`; the slice past the end of the record is
simply shorter (equivalently blank-padded). -/
def readField (cs : List Char) (pos : Nat) : FSpec → Option Token
  | .I w => (readIntField ((cs.drop pos).take w)).map Token.int
  | .F w d => (readRealField ((cs.drop pos).take w) d).map Token.real
  | .E w d => (readRealField ((cs.drop pos).take w) d).map Token.real
  | .A w => some (Token.str (String.mk ((cs.drop pos).take w)))

/-- Read the fields of a format left to right accumulating the position. -/
def fortranReadAux (cs : List Char) : List FSpec → Nat → Option (List Token)
  | [], _ => some []
  | sp :: sps, pos =>
    match readField cs pos sp with
    | none => none
    | some t =>
      match fortranReadAux cs sps (pos + sp.width) with
      | none => none
      | some ts => some (t :: ts)

/-- `fortranformat.FortranRecordReader(fmt).read(line)` for the formats used
by the parsers. -/
def fortranRead (specs : List FSpec) (line : String) : Option (List Token) :=
  fortranReadAux line.toList specs 0

/-! ## `GenericParser.parse`

The shared parse routine of `generic.py`: iterate over the lines, stopping at
the first line that strips to `-1` (everything after it is the footer), feed
every earlier line to the per-parser preprocessor, build the table
column-wise, cast each column to its declared dtype, then attach the footer
comment.  Each exception the Python code can raise becomes a `ParseError`
constructor carrying exactly the information the exception message carries. -/

/-- The failures of a single parse run.  `malformedSource` is the error the
spec prescribes for a missing terminator; it carries the offending source
identifier.  The remaining constructors model the exceptions the code
actually raises: `unboundLocalComment` is the `UnboundLocalError` on
`comment` when no terminator line was found, `castValueError` the
`ValueError` of a failed dtype cast (naming only the offending literal),
`tableShape` the `ValueError` of a column/name count mismatch in the
`QTable` constructor, `fmtReadError` a `fortranformat` read failure,
`indexError` a `[0]` access on an empty split, `attrError` a use of a
decoder attribute that was never set, `broadcastError` a numpy shape
mismatch in the abundance rescale, `emptyColumn` a `[0]` access on an empty
column, and `unknownElement` a failed periodic-table lookup. -/
inductive ParseError where
  | malformedSource (source : String)
  | unboundLocalComment
  | castValueError (token : String)
  | tableShape
  | fmtReadError
  | indexError
  | attrError
  | broadcastError
  | emptyColumn
  | unknownElement
  deriving DecidableEq, Repr

/-- Does this error carry the spec's `MalformedSource` label? -/
def ParseError.isMalformedSrc : ParseError → Bool
  | .malformedSource _ => true
  | _ => false

/-- Does an error of the parse carry the spec's `MalformedSource` label? -/
def errIsMalformed {α : Type} : Except ParseError α → Bool
  | .error e => e.isMalformedSrc
  | .ok _ => false

/-- Does an error of the parse carry a column name and a row index?  (Only
the spec's `SchemaMismatch` shape would; no constructor produced by the code
carries either.) -/
def errCarriesColRow : ParseError → Bool
  | _ => false

/-- Is the computation successful? -/
def exceptIsOk {ε α : Type} : Except ε α → Bool
  | .ok _ => true
  | .error _ => false

/-- Decidable equality of parse results (used to evaluate the concrete
scenarios). -/
instance exceptDecEq {ε α : Type} [DecidableEq ε] [DecidableEq α] :
    DecidableEq (Except ε α) := fun x y =>
  match x, y with
  | .ok a, .ok b =>
    match decEq a b with
    | isTrue h => isTrue (by rw [h])
    | isFalse h => isFalse (fun hh => h (by cases hh; rfl))
  | .error a, .error b =>
    match decEq a b with
    | isTrue h => isTrue (by rw [h])
    | isFalse h => isFalse (fun hh => h (by cases hh; rfl))
  | .ok _, .error _ => isFalse (fun h => by cases h)
  | .error _, .ok _ => isFalse (fun h => by cases h)

/-- Preprocessor strategy of a parser: the default whitespace split, a fixed
`fformat` Fortran record reader (`AbundParser`), or the stateful
ioneq preprocessor (`IoneqParser.preprocessor`). -/
inductive Preproc where
  | whitespace
  | fixed (specs : List FSpec)
  | ioneq
  deriving DecidableEq

/-- Decoder state of the stateful ioneq preprocessor: the entry count read
from row 0 (which fixes the derived record formats) and the temperature grid
read from row 1.  `logTemp` stores the exponents; the code stores
`10.**np.array(...)`, represented by the token `Token.pow10arr logTemp`. -/
structure PreState where
  numEntries : Option Nat
  logTemp : Option (List ℚ)
  deriving DecidableEq

/-- Initial decoder state (no attributes set yet). -/
def PreState.init : PreState := ⟨none, none⟩

/-- Strip the string entries of a decoded row
(`[item.strip() if type(item) is str else item for item in line]`). -/
def stripRow (ts : List Token) : List Token :=
  ts.map (fun t => match t with | .str s => .str (pyStrip s) | t => t)

/-- Numeric value of a token for `np.array(..., dtype=float)`. -/
def tokFloatVal : Token → Option ℚ
  | .int i => some (i : ℚ)
  | .real q => some q
  | _ => none

/-- One preprocessor step: consume `line` at row index `i`, extending the
accumulated `table` (the Python code appends to a list) and the decoder
state. -/
def preStep (pre : Preproc) (st : PreState) (table : List (List Token))
    (line : String) (i : Nat) : Except ParseError (PreState × List (List Token)) :=
  match pre with
  | .whitespace =>
      .ok (st, table ++ [stripRow ((wsSplit line).map Token.str)])
  | .fixed specs =>
      match fortranRead specs line with
      | none => .error .fmtReadError
      | some ts => .ok (st, table ++ [stripRow ts])
  | .ioneq =>
      if i = 0 then
        match wsSplit (pyStrip line) with
        | [] => .error .indexError
        | tok :: _ =>
          match pyParseInt tok with
          | none => .error (.castValueError tok)
          | some n =>
            if n < 0 then .error .fmtReadError
            else .ok ({ st with numEntries := some n.toNat }, table)
      else if i = 1 then
        match st.numEntries with
        | none => .error .attrError
        | some n =>
          match fortranRead (List.replicate n (.F 6 2)) line with
          | none => .error .fmtReadError
          | some ts =>
            match ts.mapM tokFloatVal with
            | none => .error .fmtReadError
            | some qs => .ok ({ st with logTemp := some qs }, table)
      else
        match st.numEntries, st.logTemp with
        | some n, some lt =>
          match fortranRead ([.I 3, .I 3] ++ List.replicate n (.E 10 2)) line with
          | none => .error .fmtReadError
          | some ts =>
            match (ts.drop 2).mapM tokFloatVal with
            | none => .error .fmtReadError
            | some rest =>
              .ok (st, table ++ [ts.take 2 ++ [Token.pow10arr lt, Token.arr rest]])
        | _, _ => .error .attrError

/-- The line loop of `GenericParser.parse`: process the remaining lines at
increasing row index; a line stripping to `-1` stops the loop and the joined
lines after it become the footer comment.  If the loop runs off the end of
the input, no comment was ever assigned (`none`). -/
def runLoop (pre : Preproc) : PreState → List (List Token) → Nat → List String →
    Except ParseError (List (List Token) × Option String)
  | _, table, _, [] => .ok (table, none)
  | st, table, i, l :: rest =>
    if pyStrip l = "-1" then .ok (table, some (joinLines rest))
    else
      match preStep pre st table l i with
      | .error e => .error e
      | .ok (st', table') => runLoop pre st' table' (i + 1) rest

/-- Shortest row length of the accumulated table (`zip(*table)` truncates
every column to it). -/
def minRowLen (table : List (List Token)) : Nat :=
  match table.map List.length with
  | [] => 0
  | n :: ns => ns.foldl min n

/-- `list(map(list, zip(*table)))`: the columns of the table, each truncated
to the shortest row. -/
def transposeMin (table : List (List Token)) : List (List Token) :=
  (List.range (minRowLen table)).map (fun j => table.map (fun row => row.getD j (Token.str "")))

/-- `column.astype(dtype)` on one entry; an error carries the offending
literal, which is all the underlying numpy `ValueError` reports (numpy's
float-to-int cast truncates toward zero; string casts of numeric entries
and casts of array entries are modelled loosely, none being reachable
through the declared schemas). -/
def castTok (d : DType) (t : Token) : Except String Token :=
  match d, t with
  | .int, .int i => .ok (.int i)
  | .int, .real q => .ok (.int (Int.tdiv q.num (q.den : ℤ)))
  | .int, .str s => match pyParseInt s with
                    | some i => .ok (.int i)
                    | none => .error s
  | .int, _ => .error "array"
  | .float, .int i => .ok (.real (i : ℚ))
  | .float, .real q => .ok (.real q)
  | .float, .str s => match pyParseFloat s with
                      | some q => .ok (.real q)
                      | none => .error s
  | .float, .arr xs => .ok (.arr xs)
  | .float, .pow10arr ls => .ok (.pow10arr ls)
  | .str, .str s => .ok (.str s)
  | .str, .int i => .ok (.str (toString i))
  | .str, _ => .error "array"

/-- Cast one column, stopping at the first failing entry. -/
def castColumn (d : DType) : List Token → Except ParseError (List Token)
  | [] => .ok []
  | t :: ts =>
    match castTok d t with
    | .error s => .error (.castValueError s)
    | .ok t' =>
      match castColumn d ts with
      | .error e => .error e
      | .ok ts' => .ok (t' :: ts')

/-- The cast loop `for name, unit, dtype in zip(...)`: cast the columns
pairwise with the dtypes; `zip` truncation leaves any surplus columns (or
dtypes) untouched. -/
def castCols : List DType → List (List Token) → Except ParseError (List (List Token))
  | d :: ds, c :: cs =>
    match castColumn d c with
    | .error e => .error e
    | .ok c' =>
      match castCols ds cs with
      | .error e => .error e
      | .ok cs' => .ok (c' :: cs')
  | _, cs => .ok cs

/-- `QTable(data=list(map(list, zip(*table))), names=headings)` followed by
the per-column dtype casts: transposing, checking the column count against
the headings, and casting.  No partial table escapes a failure. -/
def buildTable (headings : List String) (dtypes : List DType)
    (table : List (List Token)) : Except ParseError (List (List Token)) :=
  let cols := transposeMin table
  if cols.length = headings.length then castCols dtypes cols
  else .error .tableShape

/-- Static configuration of a parser: column headings, declared dtypes, the
unit strings attached to the columns (`None` units are `none`), and the
preprocessor strategy. -/
structure ParserCfg where
  headings : List String
  dtypes : List DType
  units : List (Option String)
  pre : Preproc

/-- The table built by `GenericParser.parse` before the version stamp and
the per-parser postprocessor: the cast columns plus the footer comment. -/
structure RawTable where
  cols : List (List Token)
  comment : String
  deriving DecidableEq, Repr

/-- `GenericParser.parse` on the lines of an existing source file, up to the
version stamp: run the line loop, build and cast the table, then read the
`comment` variable — which was never assigned if no terminator line was
found, so that the read raises (`unboundLocalComment`) rather than
returning a truncated table. -/
def parseCore (cfg : ParserCfg) (lines : List String) : Except ParseError RawTable :=
  match runLoop cfg.pre PreState.init [] 0 lines with
  | .error e => .error e
  | .ok (table, commentOpt) =>
    match buildTable cfg.headings cfg.dtypes table with
    | .error e => .error e
    | .ok cols =>
      match commentOpt with
      | none => .error .unboundLocalComment
      | some comment => .ok ⟨cols, comment⟩

/-- `AbundParser`: fixed format `(I3,F7.3,A5)`, schema
(atomic number : int, abundance relative to H : float (dimensionless),
element : str). -/
def abundCfg : ParserCfg :=
  ⟨["atomic number", "abundance relative to H", "element"],
   [.int, .float, .str],
   [none, some "", none],
   .fixed [.I 3, .F 7 3, .A 5]⟩

/-- `IoneqParser`: stateful preprocessor, schema (atomic number : int,
ion : int, temperature : float (K), ionization fraction : float
(dimensionless)). -/
def ioneqCfg : ParserCfg :=
  ⟨["atomic number", "ion", "temperature", "ionization fraction"],
   [.int, .int, .float, .float],
   [none, none, some "K", some ""],
   .ioneq⟩

/-! ## `AbundParser.postprocessor` and the full abundance parse -/

/-- Modelled from the spec: the external `periodictable` collaborator
(`periodictable.elements[z].symbol.lower()`), which the spec treats as an
out-of-scope lookup ("periodic-table symbol lookup").  The elements with
`Z ≤ 30` cover every abundance source; an unknown `Z` raises (`none`). -/
def ptSymbolLower (z : ℤ) : Option String :=
  if z = 1 then some "h" else if z = 2 then some "he"
  else if z = 3 then some "li" else if z = 4 then some "be"
  else if z = 5 then some "b" else if z = 6 then some "c"
  else if z = 7 then some "n" else if z = 8 then some "o"
  else if z = 9 then some "f" else if z = 10 then some "ne"
  else if z = 11 then some "na" else if z = 12 then some "mg"
  else if z = 13 then some "al" else if z = 14 then some "si"
  else if z = 15 then some "p" else if z = 16 then some "s"
  else if z = 17 then some "cl" else if z = 18 then some "ar"
  else if z = 19 then some "k" else if z = 20 then some "ca"
  else if z = 21 then some "sc" else if z = 22 then some "ti"
  else if z = 23 then some "v" else if z = 24 then some "cr"
  else if z = 25 then some "mn" else if z = 26 then some "fe"
  else if z = 27 then some "co" else if z = 28 then some "ni"
  else if z = 29 then some "cu" else if z = 30 then some "zn"
  else none

/-- `df['abundance relative to H'] - df['abundance relative to H'][df['atomic
number'] == 1]` under numpy broadcasting: the mask selects the abundances of
the rows with atomic number 1; a single match is broadcast against the whole
column, a match per row subtracts elementwise, and any other shape raises.
The result is the exponent column; the stored value is `10 ** result`
(recovered by `abundanceLinear`). -/
def rescaleLog (zs : List ℤ) (xs : List ℚ) : Except ParseError (List ℚ) :=
  let sel := ((zs.zip xs).filter (fun p => p.1 = 1)).map (fun p => p.2)
  if sel.length = 1 then .ok (xs.map (fun x => x - sel.headD 0))
  else if sel.length = xs.length then .ok (xs.zipWith (fun x s => x - s) sel)
  else .error .broadcastError

/-- The repair loop `for atomic_number in df['atomic number']:
col.append(periodictable.elements[int(atomic_number)].symbol.lower())`;
an unknown atomic number raises. -/
def symbolsFor : List ℤ → Option (List String)
  | [] => some []
  | z :: zs =>
    match ptSymbolLower z, symbolsFor zs with
    | some s, some col => some (s :: col)
    | _, _ => none

/-- The missing-data repair of `AbundParser.postprocessor`: when the first
row's element entry is the empty string, replace the whole element column by
the lowercase periodic-table symbols of the atomic-number column; otherwise
leave the column untouched.  (`df['element'][0]` on an empty column
raises.) -/
def repairElements (zs : List ℤ) : List String → Except ParseError (List String)
  | [] => .error .emptyColumn
  | e :: es =>
    if e = "" then
      match symbolsFor zs with
      | none => .error .unknownElement
      | some col => .ok col
    else .ok (e :: es)

/-- The fully parsed and postprocessed abundance table.
`abundanceShifted` holds the exponents `x - x[Z = 1]`; the persisted column
is `10 ** abundanceShifted` (see `abundanceLinear`). -/
structure AbundTable where
  atomicNumber : List ℤ
  abundanceShifted : List ℚ
  element : List String
  footer : String
  chiantiVersion : String
  abundanceFilename : String
  deriving DecidableEq, Repr

/-- The linear abundance column `10.**(x - x[Z = 1])` of the postprocessed
table. -/
noncomputable def abundanceLinear (t : AbundTable) : List ℝ :=
  t.abundanceShifted.map (fun q => (10 : ℝ) ^ ((q : ℚ) : ℝ))

/-- Column values of the cast abundance table (dtype invariants established
by the casts). -/
def tokIntVal : Token → Option ℤ
  | .int i => some i
  | _ => none

/-- String value of a cast string column entry. -/
def tokStrVal : Token → Option String
  | .str s => some s
  | _ => none

/-- `AbundParser.postprocessor` applied to the built table (plus the
version stamp already read by `parse`): rescale the abundance column,
repair a missing element column, and stamp the provenance metadata. -/
def abundPost (raw : RawTable) (version : String) (filename : String) :
    Except ParseError AbundTable :=
  match raw.cols with
  | [zc, ac, ec] =>
    match zc.mapM tokIntVal, ac.mapM tokFloatVal, ec.mapM tokStrVal with
    | some zs, some xs, some es =>
      match rescaleLog zs xs with
      | .error e => .error e
      | .ok shifted =>
        match repairElements zs es with
        | .error e => .error e
        | .ok es' => .ok ⟨zs, shifted, es', raw.comment, version, filename⟩
    | _, _, _ => .error .tableShape
  | _ => .error .tableShape

/-- The file system visible to one parse call: the resolved source file (as
its list of lines, `none` when `os.path.isfile` fails) and the content of
the `VERSION` marker file (already reduced to its stripped first line). -/
structure FS where
  source : Option (List String)
  version : String

/-- `AbundParser.parse` as a whole-file function.  The second component
counts how often this call opened and read the `VERSION` marker file: the
code reads it on every run that reaches the version stamp — there is no
process-wide cache. -/
def abundParse (filename : String) (fs : FS) :
    Except ParseError (Option AbundTable) × Nat :=
  match fs.source with
  | none => (.ok none, 0)
  | some lines =>
    match parseCore abundCfg lines with
    | .error e => (.error e, 0)
    | .ok raw =>
      match abundPost raw fs.version filename with
      | .error e => (.error e, 1)
      | .ok t => (.ok (some t), 1)

/-- Total number of `VERSION` reads performed by `n` parse calls in one
process. -/
def batchParseReads (filename : String) (fs : FS) (n : Nat) : Nat :=
  (List.replicate n fs).foldl (fun acc f => acc + (abundParse filename f).2) 0

/-! ## The hierarchical store

An HDF5 file is modelled as an association list from slash-delimited group
paths to group records; a group holds its attributes and an association
list of named datasets.  (h5py auto-creates missing intermediate groups on
`create_group`; they carry no attributes and no claim addresses them, so
group paths are kept flat.)  Dataset payloads are either the scalar written
by the non-ion writers — recorded as the rational abundance exponent, the
persisted value being its base-10 exponential — or a table column written by
`GenericParser.to_hdf5`. -/

/-- Payload of a dataset. -/
inductive H5Data where
  | scalar (x : ℚ)
  | column (ts : List Token)
  deriving DecidableEq, Repr

/-- A dataset: payload plus its `unit` attribute (every writer sets it, the
`'SKIP'` sentinel standing for an absent unit). -/
structure H5Dataset where
  data : H5Data
  unitAttr : String
  deriving DecidableEq, Repr

/-- A group: its `footer`, `chianti_version`, `element` and `ion`
attributes (absent attributes are `none`; `footer` is a plain string since
every group-creating path initialises it) and its named datasets. -/
structure H5Group where
  footer : String
  chiantiVersion : Option String
  elementAttr : Option String
  ionAttr : Option String
  datasets : List (String × H5Dataset)
  deriving DecidableEq, Repr

/-- A fresh group as created by `create_group` plus `attrs['footer'] = ''`. -/
def H5Group.fresh : H5Group := ⟨"", none, none, none, []⟩

/-- The store. -/
def H5File := List (String × H5Group)

/-- First-match association lookup (`name in grp` / `hf[grp_name]`). -/
def alget {α : Type} : List (String × α) → String → Option α
  | [], _ => none
  | (k, v) :: t, q => if k = q then some v else alget t q

/-- Association update: replace the first binding of the key, or append a
new binding. -/
def alset {α : Type} : List (String × α) → String → α → List (String × α)
  | [], q, v => [(q, v)]
  | (k, w) :: t, q, v => if k = q then (q, v) :: t else (k, w) :: alset t q v

/-! ## `AbundParser.to_hdf5` -/

/-- The labeled footer block one abundance source contributes:
`"""{}\n------------------\n{}\n        """.format(dataset_name, footer)`. -/
def abundFooterBlock (datasetName metaFooter : String) : String :=
  datasetName ++ "\n------------------\n" ++ metaFooter ++ "\n        "

/-- One row of the table as consumed by `AbundParser.to_hdf5`.  `abundance`
is the persisted scalar (represented by its exponent, see `H5Data`). -/
structure AbundRow where
  atomicNumber : ℤ
  abundance : ℚ
  element : String
  deriving DecidableEq, Repr

/-- The table handed to `AbundParser.to_hdf5`: its rows, its footer
metadata and the unit string of the abundance column. -/
structure AbundWTable where
  rows : List AbundRow
  footerMeta : String
  abundanceUnit : String
  deriving DecidableEq, Repr

/-- Group path targeted by one abundance row. -/
def abundGrpName (r : AbundRow) : String :=
  pyLower r.element ++ "/abundance"

/-- Net effect of one iteration of the row loop of `AbundParser.to_hdf5` on
the targeted group: fetch the group (creating it with an empty footer if
absent), append the source's footer block to its footer attribute, and
create the dataset only when no dataset of that name exists yet. -/
def abundRowGroup (datasetName footer unitStr : String) (og : Option H5Group)
    (r : AbundRow) : H5Group :=
  let g := match og with
           | none => H5Group.fresh
           | some g => g
  let g := { g with footer := g.footer ++ footer }
  match alget g.datasets datasetName with
  | some _ => g
  | none => { g with datasets := alset g.datasets datasetName ⟨.scalar r.abundance, unitStr⟩ }

/-- One iteration of the row loop of `AbundParser.to_hdf5`. -/
def abundWriteRow (datasetName footer unitStr : String) (hf : H5File)
    (r : AbundRow) : H5File :=
  alset hf (abundGrpName r) (abundRowGroup datasetName footer unitStr (alget hf (abundGrpName r)) r)

/-- `AbundParser.to_hdf5`: derive the dataset name from the filename stem,
format the labeled footer block once, and run the row loop. -/
def abundToHdf5 (abundanceFilename : String) (hf : H5File) (df : AbundWTable) : H5File :=
  let datasetName := pathStem abundanceFilename
  let footer := abundFooterBlock datasetName df.footerMeta
  df.rows.foldl (abundWriteRow datasetName footer df.abundanceUnit) hf

/-- Unit string of the abundance column
(`u.dimensionless_unscaled.to_string()` is the empty string). -/
def dimensionlessUnitString : String := ""

/-- Rows of a postprocessed abundance table as consumed by the writer. -/
def abundTableRows (t : AbundTable) : List AbundRow :=
  (t.atomicNumber.zip (t.abundanceShifted.zip t.element)).map
    (fun p => ⟨p.1, p.2.1, p.2.2⟩)

/-- One batch-driver step for an abundance source: parse, and persist the
table when one is returned (a `none` result is the non-fatal skip signal;
an error aborts before any store write). -/
def abundIngest (filename : String) (fs : FS) (hf : H5File) : H5File :=
  match (abundParse filename fs).1 with
  | .ok (some t) => abundToHdf5 filename hf ⟨abundTableRows t, t.footer, dimensionlessUnitString⟩
  | _ => hf

/-! ## `GenericParser.to_hdf5` -/

/-- A column handed to `GenericParser.to_hdf5`: its name, its data and its
unit (`none` for a unit-less column). -/
structure GColumn where
  name : String
  data : List Token
  unitStr : Option String
  deriving DecidableEq, Repr

/-- The table handed to `GenericParser.to_hdf5`. -/
structure GTable where
  cols : List GColumn
  footerMeta : String
  version : String
  deriving DecidableEq, Repr

/-- The `unit` attribute value written for a column: its unit string, or the
`'SKIP'` sentinel. -/
def colUnitString (c : GColumn) : String :=
  match c.unitStr with
  | none => "SKIP"
  | some s => s

/-- Net effect of one iteration of the column loop of
`GenericParser.to_hdf5` on the target group: reuse the existing dataset if
the name is present (its data is kept), otherwise create it from the column
data — and in either case (re)assign its `unit` attribute.  (The
`'<U' → '|S'` byte re-encoding and the ragged `vlen` dtype choice only
change the on-disk encoding of the payload and are not modelled.) -/
def genericColGroup (g : H5Group) (c : GColumn) : H5Group :=
  let ds := match alget g.datasets c.name with
            | some ds => { ds with unitAttr := colUnitString c }
            | none => H5Dataset.mk (.column c.data) (colUnitString c)
  { g with datasets := alset g.datasets c.name ds }

/-- One iteration of the column loop of `GenericParser.to_hdf5` (the group
always exists when the loop runs, having been created before it). -/
def genericWriteCol (grpName : String) (hf : H5File) (c : GColumn) : H5File :=
  match alget hf grpName with
  | none => hf
  | some g => alset hf grpName (genericColGroup g c)

/-- `GenericParser.to_hdf5`: resolve the `element/ion/filetype` group
(creating it with the version and footer attributes if absent), re-stamp the
`element`/`ion` attributes on the parent `element/ion` group, then run the
column loop. -/
def genericToHdf5 (element ionName filetype : String) (hf : H5File) (df : GTable) : H5File :=
  let grpName := element ++ "/" ++ ionName ++ "/" ++ filetype
  let hf := match alget hf grpName with
            | none => alset hf grpName
                ⟨df.footerMeta, some df.version, none, none, []⟩
            | some _ => hf
  let parentName := element ++ "/" ++ ionName
  let parent := match alget hf parentName with
                | none => H5Group.fresh
                | some g => g
  let hf := alset hf parentName
      { parent with elementAttr := some element, ionAttr := some ionName }
  df.cols.foldl (genericWriteCol grpName) hf

/-! ## Concrete scenario inputs -/

/-- A one-row abundance table (hydrogen only) for the double-write scenario. -/
def dfC1 : AbundWTable := ⟨[⟨1, 73/10, "h"⟩], "c", ""⟩

/-- The abundance scenario file of the spec, resolved and readable. -/
def fsC3 : FS := ⟨some ["1  7.300  h", "-1", "comment"], "8.0.2"⟩

/-- A store already holding a `scups` group with one dataset whose unit
attribute is `"A"`. -/
def stC4 : H5File :=
  [("fe/fe_2/scups", ⟨"f", some "8", none, none, [("energy", ⟨.column [.real 1], "A"⟩)]⟩)]

/-- A table writing the same dataset name with a different unit, `"B"`. -/
def gdfC4 : GTable := ⟨[⟨"energy", [.real 2], some "B"⟩], "f", "8"⟩

/-- The ionization-equilibrium scenario lines exactly as the spec gives
them. -/
def linesC5 : List String :=
  ["3", "4.00  4.50  5.00", " 1  1 1.0e-2 5.0e-1 1.0e-2", "-1"]

/-- The same scenario with the data line laid out on the `2I3,3E10.2` field
boundaries the decoder derives. -/
def linesC5A : List String :=
  ["3", "4.00  4.50  5.00", "  1  1    1.0e-2    5.0e-1    1.0e-2", "-1"]

/-- The abundance scenario lines of the spec
(`"1  7.300  h\n-1\ncomment\n"`). -/
def linesC6 : List String := ["1  7.300  h", "-1", "comment"]

/-- A source descriptor whose resolved file does not exist. -/
def fsC9 : FS := ⟨none, "8.0.2"⟩

/-! ## Association-list lemmas -/

theorem alget_alset_self {α : Type} :
    ∀ (l : List (String × α)) (k : String) (v : α), alget (alset l k v) k = some v
  | [], k, v => by simp [alset, alget]
  | (a, w) :: t, k, v => by
    by_cases h : a = k
    · simp [alset, h, alget]
    · simp [alset, h, alget, alget_alset_self t k v]

theorem alget_alset_ne {α : Type} :
    ∀ (l : List (String × α)) (k q : String) (v : α), q ≠ k →
      alget (alset l k v) q = alget l q
  | [], k, q, v, h => by
    simp only [alset, alget]
    rw [if_neg (fun e : k = q => h e.symm)]
  | (a, w) :: t, k, q, v, h => by
    by_cases hak : a = k
    · have haq : ¬ a = q := fun e => h (e.symm.trans hak)
      simp only [alset, if_pos hak, alget]
      rw [if_neg (fun e : k = q => h e.symm), if_neg haq]
    · by_cases haq : a = q
      · simp only [alset, if_neg hak, alget, if_pos haq]
      · simp only [alset, if_neg hak, alget, if_neg haq]
        exact alget_alset_ne t k q v h

/-! ## Row-loop lemmas for `AbundParser.to_hdf5` -/

theorem abund_fold_other (n f u : String) :
    ∀ (rows : List AbundRow) (hf : H5File) (p : String),
      (∀ r ∈ rows, abundGrpName r ≠ p) →
      alget (rows.foldl (abundWriteRow n f u) hf) p = alget hf p
  | [], _, _, _ => rfl
  | r :: rows, hf, p, h => by
    simp only [List.foldl_cons]
    rw [abund_fold_other n f u rows _ p (fun r' hr' => h r' (List.mem_cons_of_mem r hr'))]
    exact alget_alset_ne hf (abundGrpName r) p _ (fun hq => h r (List.mem_cons_self r rows) hq.symm)

theorem abund_fold_mem (n f u : String) :
    ∀ (rows : List AbundRow) (hf : H5File) (r : AbundRow),
      rows.Pairwise (fun a b => abundGrpName a ≠ abundGrpName b) →
      r ∈ rows →
      alget (rows.foldl (abundWriteRow n f u) hf) (abundGrpName r) =
        some (abundRowGroup n f u (alget hf (abundGrpName r)) r)
  | [], _, r, _, hr => absurd hr (List.not_mem_nil r)
  | r0 :: rows, hf, r, hp, hr => by
    rw [List.pairwise_cons] at hp
    simp only [List.foldl_cons]
    rcases List.mem_cons.mp hr with h | h
    · subst h
      rw [abund_fold_other n f u rows _ _ (fun r' hr' => (hp.1 r' hr').symm)]
      simp only [abundWriteRow]
      rw [alget_alset_self]
    · rw [abund_fold_mem n f u rows (abundWriteRow n f u hf r0) r hp.2 h]
      simp only [abundWriteRow]
      rw [alget_alset_ne hf (abundGrpName r0) (abundGrpName r) _ (fun e => hp.1 r h e.symm)]

/-! ## Column-loop lemmas for `GenericParser.to_hdf5` -/

theorem gen_fold_preserve (p : String) :
    ∀ (cols : List GColumn) (hf : H5File) (g : H5Group) (nm : String),
      alget hf p = some g →
      (∀ c ∈ cols, c.name ≠ nm) →
      ∃ g', alget (cols.foldl (genericWriteCol p) hf) p = some g' ∧
            alget g'.datasets nm = alget g.datasets nm
  | [], hf, g, nm, hg, _ => ⟨g, hg, rfl⟩
  | c :: cols, hf, g, nm, hg, h => by
    simp only [List.foldl_cons]
    have step : alget (genericWriteCol p hf c) p = some (genericColGroup g c) := by
      simp only [genericWriteCol, hg]
      exact alget_alset_self hf p _
    obtain ⟨g', hg', hds⟩ := gen_fold_preserve p cols (genericWriteCol p hf c)
      (genericColGroup g c) nm step (fun c' hc' => h c' (List.mem_cons_of_mem c hc'))
    refine ⟨g', hg', ?_⟩
    rw [hds]
    simp only [genericColGroup]
    exact alget_alset_ne g.datasets c.name nm _ (fun e => h c (List.mem_cons_self c cols) e.symm)

theorem gen_fold_mem (p : String) :
    ∀ (cols : List GColumn) (hf : H5File) (g : H5Group) (c : GColumn) (d : H5Dataset),
      alget hf p = some g →
      cols.Pairwise (fun a b => a.name ≠ b.name) →
      c ∈ cols →
      alget g.datasets c.name = some d →
      ∃ g', alget (cols.foldl (genericWriteCol p) hf) p = some g' ∧
            alget g'.datasets c.name = some ⟨d.data, colUnitString c⟩
  | [], _, _, c, _, _, _, hc, _ => absurd hc (List.not_mem_nil c)
  | c0 :: cols, hf, g, c, d, hg, hp, hc, hd => by
    rw [List.pairwise_cons] at hp
    simp only [List.foldl_cons]
    have step : alget (genericWriteCol p hf c0) p = some (genericColGroup g c0) := by
      simp only [genericWriteCol, hg]
      exact alget_alset_self hf p _
    rcases List.mem_cons.mp hc with h | h
    · subst h
      obtain ⟨g', hg', hds⟩ := gen_fold_preserve p cols (genericWriteCol p hf c)
        (genericColGroup g c) c.name step (fun c' hc' => (hp.1 c' hc').symm)
      refine ⟨g', hg', ?_⟩
      rw [hds]
      simp only [genericColGroup, hd]
      rw [alget_alset_self]
    · have hne : c0.name ≠ c.name := hp.1 c h
      have hd' : alget (genericColGroup g c0).datasets c.name = some d := by
        simp only [genericColGroup]
        rw [alget_alset_ne g.datasets c0.name c.name _ (fun e => hne e.symm)]
        exact hd
      exact gen_fold_mem p cols (genericWriteCol p hf c0) (genericColGroup g c0) c d
        step hp.2 h hd'

/-! ## Error-shape lemmas for `GenericParser.parse` -/

theorem preStep_not_malformed (pre : Preproc) (st : PreState) (table : List (List Token))
    (line : String) (i : Nat) (e : ParseError)
    (h : preStep pre st table line i = .error e) : e.isMalformedSrc = false := by
  cases pre <;> simp only [preStep] at h
  case whitespace => exact Except.noConfusion h
  case fixed specs =>
    cases hr : fortranRead specs line <;> rw [hr] at h
    · injection h with he
      subst he
      rfl
    · exact Except.noConfusion h
  case ioneq =>
    repeat' split at h
    all_goals first
      | exact Except.noConfusion h
      | (injection h with he; subst he; rfl)

theorem runLoop_not_malformed (pre : Preproc) :
    ∀ (lines : List String) (st : PreState) (table : List (List Token)) (i : Nat)
      (e : ParseError), runLoop pre st table i lines = .error e → e.isMalformedSrc = false
  | [], _, _, _, _, h => Except.noConfusion h
  | l :: rest, st, table, i, e, h => by
    simp only [runLoop] at h
    by_cases hl : pyStrip l = "-1"
    · rw [if_pos hl] at h
      exact Except.noConfusion h
    · rw [if_neg hl] at h
      cases hps : preStep pre st table l i with
      | error e1 =>
        rw [hps] at h
        injection h with he
        subst he
        exact preStep_not_malformed pre st table l i e1 hps
      | ok p =>
        rw [hps] at h
        exact runLoop_not_malformed pre rest p.1 p.2 (i + 1) e h

theorem castColumn_error_shape (d : DType) :
    ∀ (ts : List Token) (e : ParseError), castColumn d ts = .error e →
      ∃ s, e = .castValueError s
  | [], _, h => Except.noConfusion h
  | t :: ts, e, h => by
    simp only [castColumn] at h
    cases hc : castTok d t with
    | error s =>
      rw [hc] at h
      injection h with he
      exact ⟨s, he.symm⟩
    | ok t1 =>
      rw [hc] at h
      cases hrest : castColumn d ts with
      | error e1 =>
        rw [hrest] at h
        injection h with he
        subst he
        exact castColumn_error_shape d ts e1 hrest
      | ok ts1 =>
        rw [hrest] at h
        exact Except.noConfusion h

theorem castCols_error_shape :
    ∀ (ds : List DType) (cs : List (List Token)) (e : ParseError),
      castCols ds cs = .error e → ∃ s, e = .castValueError s
  | [], cs, e, h => by
    simp only [castCols] at h
    exact Except.noConfusion h
  | d :: ds, [], e, h => by
    simp only [castCols] at h
    exact Except.noConfusion h
  | d :: ds, c :: cs, e, h => by
    simp only [castCols] at h
    cases hc : castColumn d c with
    | error e1 =>
      rw [hc] at h
      injection h with he
      subst he
      exact castColumn_error_shape d c e1 hc
    | ok c1 =>
      rw [hc] at h
      cases hrest : castCols ds cs with
      | error e1 =>
        rw [hrest] at h
        injection h with he
        subst he
        exact castCols_error_shape ds cs e1 hrest
      | ok cs1 =>
        rw [hrest] at h
        exact Except.noConfusion h

theorem buildTable_not_malformed (headings : List String) (dtypes : List DType)
    (table : List (List Token)) (e : ParseError)
    (h : buildTable headings dtypes table = .error e) : e.isMalformedSrc = false := by
  simp only [buildTable] at h
  by_cases hlen : (transposeMin table).length = headings.length
  · rw [if_pos hlen] at h
    obtain ⟨s, hs⟩ := castCols_error_shape dtypes (transposeMin table) e h
    subst hs
    rfl
  · rw [if_neg hlen] at h
    injection h with he
    subst he
    rfl

theorem runLoop_no_marker (pre : Preproc) :
    ∀ (lines : List String), (∀ l ∈ lines, pyStrip l ≠ "-1") →
      ∀ (st : PreState) (table : List (List Token)) (i : Nat),
        (∃ e, runLoop pre st table i lines = .error e) ∨
        (∃ tbl, runLoop pre st table i lines = .ok (tbl, none))
  | [], _, _, table, _ => .inr ⟨table, rfl⟩
  | l :: rest, h, st, table, i => by
    simp only [runLoop]
    rw [if_neg (h l (List.mem_cons_self l rest))]
    cases hps : preStep pre st table l i with
    | error e => exact .inl ⟨e, rfl⟩
    | ok p =>
      exact runLoop_no_marker pre rest
        (fun l1 hl1 => h l1 (List.mem_cons_of_mem l hl1)) p.1 p.2 (i + 1)

/-! ## Cast-abort lemmas -/

theorem castColumn_fail (d : DType) :
    ∀ (ts : List Token) (t : Token), t ∈ ts → exceptIsOk (castTok d t) = false →
      ∃ s, castColumn d ts = .error (.castValueError s)
  | [], t, ht, _ => absurd ht (List.not_mem_nil t)
  | t0 :: ts, t, ht, hfail => by
    simp only [castColumn]
    cases hc : castTok d t0 with
    | error s => exact ⟨s, rfl⟩
    | ok t1 =>
      rcases List.mem_cons.mp ht with h | h
      · subst h
        rw [hc] at hfail
        exact absurd hfail (by simp [exceptIsOk])
      · obtain ⟨s, hs⟩ := castColumn_fail d ts t h hfail
        rw [hs]
        exact ⟨s, rfl⟩

theorem castCols_fail :
    ∀ (ds : List DType) (cs : List (List Token)) (d : DType) (c : List Token),
      (d, c) ∈ ds.zip cs → ∀ t ∈ c, exceptIsOk (castTok d t) = false →
      ∃ s, castCols ds cs = .error (.castValueError s)
  | [], cs, d, c, hmem, _, _, _ => absurd hmem (by simp)
  | d0 :: ds, [], d, c, hmem, _, _, _ => absurd hmem (by simp)
  | d0 :: ds, c0 :: cs, d, c, hmem, t, ht, hfail => by
    simp only [castCols]
    rcases List.mem_cons.mp hmem with h | h
    · injection h with hd hc
      subst hd
      subst hc
      obtain ⟨s, hs⟩ := castColumn_fail _ _ t ht hfail
      rw [hs]
      exact ⟨s, rfl⟩
    · cases hcol : castColumn d0 c0 with
      | error e =>
        obtain ⟨s, hs⟩ := castColumn_error_shape d0 c0 e hcol
        subst hs
        exact ⟨s, rfl⟩
      | ok c1 =>
        obtain ⟨s, hs⟩ := castCols_fail ds cs d c h t ht hfail
        rw [hs]
        exact ⟨s, rfl⟩

/-! ## Version-read lemmas -/

theorem abundParse_reads_one (filename : String) (fs : FS) (t : AbundTable)
    (h : (abundParse filename fs).1 = .ok (some t)) : (abundParse filename fs).2 = 1 := by
  cases hs : fs.source with
  | none => simp [abundParse, hs] at h
  | some lines =>
    simp only [abundParse, hs] at h ⊢
    cases hc : parseCore abundCfg lines with
    | error e =>
      rw [hc] at h
      simp at h
    | ok raw =>
      cases hp : abundPost raw fs.version filename with
      | error e => simp [hp]
      | ok t1 => simp [hp]

theorem batch_foldl_reads (filename : String) (fs : FS) :
    ∀ (n : Nat) (acc : Nat),
      (List.replicate n fs).foldl (fun a f => a + (abundParse filename f).2) acc =
        acc + n * (abundParse filename fs).2
  | 0, acc => by simp
  | n + 1, acc => by
    simp only [List.replicate_succ, List.foldl_cons]
    rw [batch_foldl_reads filename fs n (acc + (abundParse filename fs).2)]
    ring

/-! ## Periodic-table mapM lemma -/

theorem symbolsFor_eq_map :
    ∀ (zs : List ℤ), (∀ z ∈ zs, (ptSymbolLower z).isSome = true) →
      symbolsFor zs = some (zs.map (fun z => (ptSymbolLower z).getD ""))
  | [], _ => rfl
  | z :: zs, h => by
    obtain ⟨v, hv⟩ := Option.isSome_iff_exists.mp (h z (List.mem_cons_self z zs))
    have ih := symbolsFor_eq_map zs (fun z1 hz1 => h z1 (List.mem_cons_of_mem z hz1))
    simp [symbolsFor, hv, ih]

/-! ## Path disjointness -/

theorem parent_ne_grp (e i f : String) :
    e ++ "/" ++ i ≠ e ++ "/" ++ i ++ "/" ++ f := by
  intro h
  have hlen := congrArg String.length h
  simp only [String.length_append] at hlen
  have h1 : ("/" : String).length = 1 := rfl
  rw [h1] at hlen
  omega

/-- The footer produced by one abundance row write: the incoming group's
footer (empty for a fresh group) extended by the source's block, whatever
the dataset branch did. -/
theorem abundRowGroup_footer (n f u : String) (og : Option H5Group) (r : AbundRow) :
    (abundRowGroup n f u og r).footer =
      (match og with | none => "" | some g => g.footer) ++ f := by
  cases og <;> (unfold abundRowGroup; dsimp only; split <;> rfl)

/-! ## Claims -/

/-- C1 counterexample: writing the hydrogen abundance table to an empty
store twice leaves the group footer equal to the source's block repeated,
which contains that block twice, not exactly once as claimed. -/
theorem C1_counterexample :
    (alget (abundToHdf5 "sun.abund" (abundToHdf5 "sun.abund" ([] : H5File) dfC1) dfC1)
        "h/abundance").map H5Group.footer =
      some (abundFooterBlock "sun" "c" ++ abundFooterBlock "sun" "c") ∧
    countOccsStr (abundFooterBlock "sun" "c")
      (abundFooterBlock "sun" "c" ++ abundFooterBlock "sun" "c") = 2 ∧
    ¬ (2 = 1) :=
  ⟨by decide, by decide, by decide⟩

/-- C1 (amended): for every store and every table whose rows target
pairwise-distinct groups none of which exists yet, writing the table twice
leaves, in each row's group, exactly one dataset carrying the derived name
and the first write's value — but the group's footer holds the source's
labeled block twice, appended once per write. -/
theorem C1_write_twice (fn : String) (hf : H5File) (df : AbundWTable)
    (hdist : df.rows.Pairwise (fun a b => abundGrpName a ≠ abundGrpName b))
    (r : AbundRow) (hr : r ∈ df.rows)
    (habs : alget hf (abundGrpName r) = none) :
    alget (abundToHdf5 fn (abundToHdf5 fn hf df) df) (abundGrpName r) =
      some ⟨abundFooterBlock (pathStem fn) df.footerMeta ++
              abundFooterBlock (pathStem fn) df.footerMeta,
            none, none, none,
            [(pathStem fn, ⟨.scalar r.abundance, df.abundanceUnit⟩)]⟩ := by
  simp only [abundToHdf5]
  rw [abund_fold_mem _ _ _ df.rows _ r hdist hr,
      abund_fold_mem _ _ _ df.rows hf r hdist hr, habs]
  simp [abundRowGroup, H5Group.fresh, alget, alset]

/-- C1 witness: the amended theorem evaluated on the hydrogen table over the
empty store. -/
theorem C1_write_twice_witness :
    dfC1.rows.Pairwise (fun a b => abundGrpName a ≠ abundGrpName b) ∧
    (⟨1, 73/10, "h"⟩ : AbundRow) ∈ dfC1.rows ∧
    alget ([] : H5File) (abundGrpName ⟨1, 73/10, "h"⟩) = none ∧
    alget (abundToHdf5 "sun.abund" (abundToHdf5 "sun.abund" ([] : H5File) dfC1) dfC1)
        (abundGrpName ⟨1, 73/10, "h"⟩) =
      some ⟨abundFooterBlock (pathStem "sun.abund") dfC1.footerMeta ++
              abundFooterBlock (pathStem "sun.abund") dfC1.footerMeta,
            none, none, none,
            [(pathStem "sun.abund", ⟨.scalar ((73 : ℚ)/10), dfC1.abundanceUnit⟩)]⟩ :=
  ⟨by simp [dfC1], by decide, by decide,
   C1_write_twice "sun.abund" [] dfC1 (by simp [dfC1]) ⟨1, 73/10, "h"⟩ (by decide) (by decide)⟩

/-- C2 counterexample: a source whose single line never strips to `-1`
makes the parse fail — but with the uninitialized-`comment` error, which is
not a `MalformedSource` failure and names no source. -/
theorem C2_counterexample :
    parseCore abundCfg ["1  7.300  h"] = .error .unboundLocalComment ∧
    errIsMalformed (parseCore abundCfg ["1  7.300  h"]) = false :=
  ⟨by decide, by decide⟩

/-- C2 (amended): for every parser configuration and every input with no
line stripping to `-1`, the parse fails — no truncated table is ever
returned — but the failure is never the spec's `MalformedSource` error
identifying the offending source (the code raises an
uninitialized-variable or build error instead). -/
theorem C2_missing_terminator (cfg : ParserCfg) (lines : List String)
    (h : ∀ l ∈ lines, pyStrip l ≠ "-1") :
    exceptIsOk (parseCore cfg lines) = false ∧
    errIsMalformed (parseCore cfg lines) = false := by
  rcases runLoop_no_marker cfg.pre lines h PreState.init [] 0 with ⟨e, he⟩ | ⟨tbl, htbl⟩
  · refine ⟨by simp [parseCore, he, exceptIsOk], ?_⟩
    simp only [parseCore, he, errIsMalformed]
    exact runLoop_not_malformed cfg.pre lines PreState.init [] 0 e he
  · cases hb : buildTable cfg.headings cfg.dtypes tbl with
    | error e =>
      refine ⟨by simp [parseCore, htbl, hb, exceptIsOk], ?_⟩
      simp only [parseCore, htbl, hb, errIsMalformed]
      exact buildTable_not_malformed cfg.headings cfg.dtypes tbl e hb
    | ok cols =>
      exact ⟨by simp [parseCore, htbl, hb, exceptIsOk],
             by simp [parseCore, htbl, hb, errIsMalformed, ParseError.isMalformedSrc]⟩

/-- C2 witness: the amended theorem on the one-line abundance source. -/
theorem C2_missing_terminator_witness :
    (∀ l ∈ ["1  7.300  h"], pyStrip l ≠ "-1") ∧
    exceptIsOk (parseCore abundCfg ["1  7.300  h"]) = false ∧
    errIsMalformed (parseCore abundCfg ["1  7.300  h"]) = false :=
  ⟨by decide, C2_missing_terminator abundCfg ["1  7.300  h"] (by decide)⟩

/-- C3 counterexample: two successful parses of the same source in one
process read the version marker twice, not at most once as the claimed
process-wide cache would imply. -/
theorem C3_counterexample :
    batchParseReads "x.abund" fsC3 2 = 2 ∧ ¬ (2 ≤ 1) :=
  ⟨by decide, by decide⟩

/-- C3 (amended): there is no version cache — every parse that reaches the
version stamp re-opens and re-reads the marker file, so `n` successful
parses in one process perform exactly `n` reads. -/
theorem C3_version_reread (filename : String) (fs : FS) (t : AbundTable)
    (h : (abundParse filename fs).1 = .ok (some t)) (n : Nat) :
    batchParseReads filename fs n = n := by
  simp only [batchParseReads]
  rw [batch_foldl_reads filename fs n 0, abundParse_reads_one filename fs t h]
  omega

/-- C3 witness: three parses of the scenario source perform three reads. -/
theorem C3_version_reread_witness :
    (abundParse "x.abund" fsC3).1 =
      .ok (some ⟨[1], [0], ["h"], "comment\n", "8.0.2", "x.abund"⟩) ∧
    batchParseReads "x.abund" fsC3 3 = 3 :=
  ⟨by decide, C3_version_reread "x.abund" fsC3
    ⟨[1], [0], ["h"], "comment\n", "8.0.2", "x.abund"⟩ (by decide) 3⟩

/-- C4 counterexample: re-writing the `energy` column into a group that
already holds an `energy` dataset keeps the dataset's bytes but replaces
its `unit` attribute (`"A"` becomes `"B"`), so the write is not a no-op on
the dataset's attributes. -/
theorem C4_counterexample :
    (alget stC4 "fe/fe_2/scups").map (fun g => alget g.datasets "energy") =
      some (some ⟨.column [.real 1], "A"⟩) ∧
    (alget (genericToHdf5 "fe" "fe_2" "scups" stC4 gdfC4) "fe/fe_2/scups").map
        (fun g => alget g.datasets "energy") =
      some (some ⟨.column [.real 1], "B"⟩) ∧
    ¬ (("B" : String) = "A") :=
  ⟨by decide, by decide, by decide⟩

/-- C4 (amended): when the target group already holds a dataset of the
name being written, the dataset's data is never replaced — but the generic
column writer re-assigns its `unit` attribute to the incoming column's unit
on every write, while the abundance row writer leaves the existing
dataset list entirely untouched. -/
theorem C4_existing_dataset (hf : H5File) (df : GTable) (e i f : String)
    (g0 : H5Group) (c : GColumn) (d : H5Dataset)
    (hg : alget hf (e ++ "/" ++ i ++ "/" ++ f) = some g0)
    (hp : df.cols.Pairwise (fun a b => a.name ≠ b.name))
    (hc : c ∈ df.cols)
    (hd : alget g0.datasets c.name = some d) :
    (∃ g1, alget (genericToHdf5 e i f hf df) (e ++ "/" ++ i ++ "/" ++ f) = some g1 ∧
        alget g1.datasets c.name = some ⟨d.data, colUnitString c⟩) ∧
    (∀ (n foot u : String) (g2 : H5Group) (r : AbundRow),
        (alget g2.datasets n).isSome = true →
        (abundRowGroup n foot u (some g2) r).datasets = g2.datasets) := by
  constructor
  · simp only [genericToHdf5, hg]
    exact gen_fold_mem _ df.cols _ g0 c d
      (by rw [alget_alset_ne _ _ _ _ (Ne.symm (parent_ne_grp e i f))]; exact hg)
      hp hc hd
  · intro n foot u g2 r hsome
    obtain ⟨d2, hd2⟩ := Option.isSome_iff_exists.mp hsome
    simp [abundRowGroup, hd2]

/-- C4 witness: the amended theorem on the concrete store and table of the
counterexample. -/
theorem C4_existing_dataset_witness :
    alget stC4 ("fe" ++ "/" ++ "fe_2" ++ "/" ++ "scups") =
      some ⟨"f", some "8", none, none, [("energy", ⟨.column [.real 1], "A"⟩)]⟩ ∧
    ((∃ g1, alget (genericToHdf5 "fe" "fe_2" "scups" stC4 gdfC4)
          ("fe" ++ "/" ++ "fe_2" ++ "/" ++ "scups") = some g1 ∧
        alget g1.datasets (GColumn.mk "energy" [.real 2] (some "B")).name =
          some ⟨.column [.real 1], colUnitString (GColumn.mk "energy" [.real 2] (some "B"))⟩) ∧
     (∀ (n foot u : String) (g2 : H5Group) (r : AbundRow),
        (alget g2.datasets n).isSome = true →
        (abundRowGroup n foot u (some g2) r).datasets = g2.datasets)) :=
  ⟨by decide,
   C4_existing_dataset stC4 gdfC4 "fe" "fe_2" "scups"
     ⟨"f", some "8", none, none, [("energy", ⟨.column [.real 1], "A"⟩)]⟩
     ⟨"energy", [.real 2], some "B"⟩ ⟨.column [.real 1], "A"⟩
     (by decide) (by decide) (by decide) (by decide)⟩

/-- C5 counterexample: on the spec's exact lines the derived `2I3,3E10.2`
fixed-width rule cuts the third field as `"1.0e-2 5.0"`, which is not a
Fortran real, so the parse fails and yields no row at all. -/
theorem C5_counterexample :
    parseCore ioneqCfg linesC5 = .error .fmtReadError ∧
    exceptIsOk (parseCore ioneqCfg linesC5) = false :=
  ⟨by decide, by decide⟩

/-- C5 (amended): with the data line laid out on the derived `2I3,3E10.2`
field boundaries, parsing yields exactly one row whose shared temperature
array is `[10^4.00, 10^4.50, 10^5.00]` kelvin and whose fraction array is
`[0.01, 0.50, 0.01]`; the count is read from row 0, the grid from row 1,
and the same grid is merged into the data row. -/
theorem C5_ioneq_scenario :
    parseCore ioneqCfg linesC5A =
      .ok ⟨[[.int 1], [.int 1], [.pow10arr [4, 9/2, 5]], [.arr [1/100, 1/2, 1/100]]], ""⟩ ∧
    tokRealArr (.pow10arr [4, 9/2, 5]) =
      [(10:ℝ) ^ (4:ℝ), (10:ℝ) ^ (4.5:ℝ), (10:ℝ) ^ (5:ℝ)] ∧
    tokRealArr (.arr [1/100, 1/2, 1/100]) = [(0.01:ℝ), (0.5:ℝ), (0.01:ℝ)] ∧
    ioneqCfg.units = [none, none, some "K", some ""] := by
  refine ⟨by decide, ?_, ?_, rfl⟩
  · simp only [tokRealArr, List.map]
    norm_num
  · simp only [tokRealArr, List.map]
    norm_num

/-- C6: the abundance scenario file parses to exactly one raw row
`(1, 7.300, "h")` with footer `"comment\n"`, the postprocessor rescales by
`10^(x - x[Z=1])`, and the resulting abundance value is `1.0`. -/
theorem C6_abund_scenario :
    parseCore abundCfg linesC6 =
      .ok ⟨[[.int 1], [.real (73/10)], [.str "h"]], "comment\n"⟩ ∧
    abundPost ⟨[[.int 1], [.real (73/10)], [.str "h"]], "comment\n"⟩ "8.0.2" "x.abund" =
      .ok ⟨[1], [0], ["h"], "comment\n", "8.0.2", "x.abund"⟩ ∧
    abundanceLinear ⟨[1], [0], ["h"], "comment\n", "8.0.2", "x.abund"⟩ = [(1:ℝ)] := by
  refine ⟨by decide, by decide, ?_⟩
  simp [abundanceLinear, Real.rpow_zero]

/-- C7: writing single-row sources A then B into the same (initially
absent) group leaves the group's footer equal to A's labeled block followed
by B's labeled block, in that order. -/
theorem C7_footer_order (hf : H5File) (fnA fnB : String) (dfA dfB : AbundWTable)
    (rA rB : AbundRow)
    (hA : dfA.rows = [rA]) (hB : dfB.rows = [rB])
    (hsame : abundGrpName rB = abundGrpName rA)
    (habs : alget hf (abundGrpName rA) = none) :
    (alget (abundToHdf5 fnB (abundToHdf5 fnA hf dfA) dfB) (abundGrpName rA)).map
        H5Group.footer =
      some (abundFooterBlock (pathStem fnA) dfA.footerMeta ++
            abundFooterBlock (pathStem fnB) dfB.footerMeta) := by
  simp only [abundToHdf5, hA, hB, List.foldl_cons, List.foldl_nil]
  simp only [abundWriteRow, hsame]
  rw [alget_alset_self, alget_alset_self, habs]
  simp [abundRowGroup_footer]

/-- C7 witness: the theorem on two concrete hydrogen sources over the empty
store. -/
theorem C7_footer_order_witness :
    (alget (abundToHdf5 "b.abund" (abundToHdf5 "a.abund" ([] : H5File)
        ⟨[⟨1, 73/10, "h"⟩], "fa", ""⟩) ⟨[⟨1, 8, "H"⟩], "fb", ""⟩)
        (abundGrpName ⟨1, 8, "H"⟩)).map H5Group.footer =
      some (abundFooterBlock (pathStem "a.abund") "fa" ++
            abundFooterBlock (pathStem "b.abund") "fb") := by
  have h := C7_footer_order ([] : H5File) "a.abund" "b.abund"
    ⟨[⟨1, 73/10, "h"⟩], "fa", ""⟩ ⟨[⟨1, 8, "H"⟩], "fb", ""⟩
    ⟨1, 73/10, "h"⟩ ⟨1, 8, "H"⟩ rfl rfl (by decide) (by decide)
  have he : abundGrpName (⟨1, 8, "H"⟩ : AbundRow) =
      abundGrpName (⟨1, 73/10, "h"⟩ : AbundRow) := by decide
  rw [he]
  exact h

/-- C8 counterexample: a token that fails its integer cast aborts the build
with a `ValueError` naming only the offending literal — the failure carries
neither the column name nor the row index the claim promises. -/
theorem C8_counterexample :
    buildTable ["atomic number"] [DType.int] [[Token.str "h"]] =
      .error (.castValueError "h") ∧
    errCarriesColRow (.castValueError "h") = false :=
  ⟨by decide, rfl⟩

/-- C8 (amended): whenever any token of the (truncated, transposed) table
fails to cast to its column's declared type, the build aborts with a cast
`ValueError` naming an offending literal; no partial table is returned, and
the error carries neither column name nor row index. -/
theorem C8_cast_abort (headings : List String) (dtypes : List DType)
    (table : List (List Token)) (d : DType) (c : List Token) (t : Token)
    (hlen : (transposeMin table).length = headings.length)
    (hmem : (d, c) ∈ dtypes.zip (transposeMin table))
    (ht : t ∈ c)
    (hfail : exceptIsOk (castTok d t) = false) :
    ∃ s, buildTable headings dtypes table = .error (.castValueError s) ∧
         errCarriesColRow (.castValueError s) = false := by
  obtain ⟨s, hs⟩ := castCols_fail dtypes (transposeMin table) d c hmem t ht hfail
  refine ⟨s, ?_, rfl⟩
  simp only [buildTable, if_pos hlen]
  exact hs

/-- C8 witness: the amended theorem on the single-cell table whose token is
`"h"` under an integer dtype. -/
theorem C8_cast_abort_witness :
    (transposeMin [[Token.str "h"]]).length = ["atomic number"].length ∧
    (DType.int, [Token.str "h"]) ∈ [DType.int].zip (transposeMin [[Token.str "h"]]) ∧
    Token.str "h" ∈ [Token.str "h"] ∧
    exceptIsOk (castTok DType.int (Token.str "h")) = false ∧
    (∃ s, buildTable ["atomic number"] [DType.int] [[Token.str "h"]] =
        .error (.castValueError s) ∧
      errCarriesColRow (.castValueError s) = false) :=
  ⟨by decide, by decide, by decide, by decide,
   C8_cast_abort ["atomic number"] [DType.int] [[Token.str "h"]]
     DType.int [Token.str "h"] (Token.str "h")
     (by decide) (by decide) (by decide) (by decide)⟩

/-- C9: a source descriptor whose resolved file does not exist makes the
parse return the non-fatal skip signal (`None`, no error, no version read),
and the ingestion step leaves the store untouched. -/
theorem C9_missing_source (filename : String) (fs : FS) (hf : H5File)
    (h : fs.source = none) :
    (abundParse filename fs).1 = .ok none ∧
    (abundParse filename fs).2 = 0 ∧
    abundIngest filename fs hf = hf := by
  refine ⟨?_, ?_, ?_⟩ <;> simp [abundParse, abundIngest, h]

/-- C9 witness: the skip on a concrete missing source over a nonempty
store. -/
theorem C9_missing_source_witness :
    fsC9.source = none ∧
    (abundParse "sun_coronal.abund" fsC9).1 = .ok none ∧
    (abundParse "sun_coronal.abund" fsC9).2 = 0 ∧
    abundIngest "sun_coronal.abund" fsC9 [("h/abundance", H5Group.fresh)] =
      [("h/abundance", H5Group.fresh)] :=
  ⟨rfl, C9_missing_source "sun_coronal.abund" fsC9 [("h/abundance", H5Group.fresh)] rfl⟩

/-- C10: the missing-element repair triggers exactly when the first row's
element entry is empty; when it triggers, every row's element is replaced by
the lowercase periodic-table symbol of that row's atomic number, and when it
does not trigger the column is returned unchanged even if a later entry is
empty. -/
theorem C10_element_repair (zs : List ℤ) (e : String) (es : List String) :
    (e = "" → (∀ z ∈ zs, (ptSymbolLower z).isSome = true) →
      repairElements zs (e :: es) =
        .ok (zs.map (fun z => (ptSymbolLower z).getD ""))) ∧
    (e ≠ "" → repairElements zs (e :: es) = .ok (e :: es)) := by
  constructor
  · intro he hz
    subst he
    simp [repairElements, symbolsFor_eq_map zs hz]
  · intro he
    simp only [repairElements, if_neg he]

/-- C10 witness: the repair on `[1, 2]` with an empty leading element, and
the non-trigger case with a later empty entry. -/
theorem C10_element_repair_witness :
    repairElements [1, 2] ("" :: ["x"]) = .ok ["h", "he"] ∧
    repairElements [1] ("h" :: [""]) = .ok ["h", ""] := by
  constructor
  · have h := (C10_element_repair [1, 2] "" ["x"]).1 rfl (by decide)
    have hm : ([1, 2] : List ℤ).map (fun z => (ptSymbolLower z).getD "") = ["h", "he"] := by
      decide
    rw [hm] at h
    exact h
  · exact (C10_element_repair [1] "h" [""]).2 (by decide)

end Fiasco
